import Mathlib

/-!
Shallow embedding of `src/app/server.js`: a minimal file-share HTTP service
with four lifecycle handlers (presign-upload, complete-upload, get-metadata,
create-share-link) over an object store (S3) and a metadata store (DynamoDB).

The metadata store is modelled as a finite map `String → Option FileRecord`;
each handler is a pure function from the request, the current store and the
results of the external SDK calls (which the code awaits) to the HTTP
response and the new store.
-/

/-- JavaScript-style values as they may appear in a parsed JSON request body
(a required field can be missing, null, a string, a number or a boolean). -/
inductive JsVal where
  | undef
  | nullV
  | str (s : String)
  | num (n : Int)
  | boolean (b : Bool)
deriving DecidableEq, Repr

/-- An error value as thrown inside the handlers: an optional `statusCode`
plus a message.  The error-handler middleware (server.js lines 206-209) maps
it to `err.statusCode || 500` with body `{"error": err.message}`. -/
structure JsError where
  statusCode : Option Nat
  message : String
deriving DecidableEq, Repr

/-- JS `String.prototype.trim()`: strip leading and trailing whitespace. -/
def jsTrim (s : String) : String :=
  String.mk
    (((s.data.dropWhile Char.isWhitespace).reverse.dropWhile
        Char.isWhitespace).reverse)

/-- `requireString` (server.js lines 49-56): a value that is falsy, not a
string, or blank after trimming throws a 400 error naming the field;
otherwise the trimmed string is returned.  For a string `s` the JS test
`!val || typeof val !== "string" || !val.trim()` fails exactly when `s` is
empty or trims to empty; every non-string value fails (falsy values at
`!val`, truthy non-strings at the `typeof` test). -/
def requireString (val : JsVal) (name : String) : Except JsError String :=
  match val with
  | .str s =>
      if s = "" then .error ⟨some 400, name ++ " is required"⟩
      else if jsTrim s = "" then .error ⟨some 400, name ++ " is required"⟩
      else .ok (jsTrim s)
  | _ => .error ⟨some 400, name ++ " is required"⟩

/-- A value that `requireString` rejects: missing (undefined), null, not a
string, or a string that is blank after trimming. -/
def jsBadString : JsVal → Bool
  | .str s => jsTrim s = ""
  | _ => true

/-- Membership in the JS regex character class `[\w.\-]`, i.e.
`[A-Za-z0-9_.-]` (`\w` is ASCII-only without the unicode flag). -/
def isWordDotDash (c : Char) : Bool :=
  c.isAlpha || c.isDigit || c = '_' || c = '.' || c = '-'

/-- Semantics of `originalFilename.replace(/[^\w.\-]+/g, "_")`
(server.js line 67): the regex matches a maximal nonempty run of characters
outside `[\w.\-]` and the whole run is replaced by a single underscore.
The boolean flag records whether the previous character was part of such a
run (in which case a further bad character extends the same match and emits
nothing). -/
def sanitizeAux : Bool → List Char → List Char
  | _, [] => []
  | inRun, c :: cs =>
      if isWordDotDash c then c :: sanitizeAux false cs
      else if inRun then sanitizeAux true cs
      else '_' :: sanitizeAux true cs

/-- The sanitized filename used in the storage key (server.js line 67). -/
def sanitize (s : String) : String :=
  String.mk (sanitizeAux false s.data)

/-- Dropping a prefix never lengthens a list (used for termination below). -/
theorem dropWhile_length_le (p : Char → Bool) (l : List Char) :
    (l.dropWhile p).length ≤ l.length := by
  induction l with
  | nil => simp [List.dropWhile]
  | cons c cs ih =>
      by_cases h : p c
      · simp only [List.dropWhile, h]
        exact Nat.le_succ_of_le ih
      · simp [List.dropWhile, h]

/-- Spec-level reading of the same replacement: each maximal run of
characters outside `[A-Za-z0-9_.-]` is replaced, as a block, by one
underscore (the remainder of the run is dropped before recursing). -/
def sanitizeRuns : List Char → List Char
  | [] => []
  | c :: cs =>
      if isWordDotDash c then c :: sanitizeRuns cs
      else '_' :: sanitizeRuns (cs.dropWhile (fun d => !(isWordDotDash d)))
termination_by l => l.length
decreasing_by
  · simp only [List.length_cons]
    exact Nat.lt_succ_self _
  · simp only [List.length_cons]
    exact Nat.lt_succ_of_le (dropWhile_length_le _ _)

/-- The per-character replacement that the spec sentence describes: every
character outside the class becomes its own underscore, runs not collapsed. -/
def sanitizePerChar (s : String) : String :=
  String.mk (s.data.map (fun c => if isWordDotDash c then c else '_'))

/-- File status lifecycle enum: `"UPLOADING"` or `"READY"`. -/
inductive Status where
  | uploading
  | ready
deriving DecidableEq, Repr

/-- The string stored in the record's `status` attribute. -/
def Status.toString : Status → String
  | .uploading => "UPLOADING"
  | .ready => "READY"

/-- The File Record persisted in the metadata table (server.js lines 84-99).
`sizeBytes` is absent until completion (and may be set to null there, both
modelled as `none`); `downloadCount` is `none` when the attribute is missing
(the share handler's `if_not_exists` treats that as 0). -/
structure FileRecord where
  fileId : String
  s3Bucket : String
  s3Key : String
  originalFilename : String
  contentType : String
  status : Status
  createdAt : String
  expiresAt : Nat
  sizeBytes : Option Nat
  downloadCount : Option Nat
deriving DecidableEq, Repr

/-- The metadata table: a map from `fileId` to the record, `none` if absent. -/
def Store : Type := String → Option FileRecord

/-- Writing a record under a key (PutCommand / UpdateCommand at a key that
was just read). -/
def Store.insert (store : Store) (k : String) (r : FileRecord) : Store :=
  fun k2 => if k2 = k then some r else store k2

/-- JSON response bodies produced by the four handlers and the error path. -/
inductive Body where
  | presignOk (fileId uploadUrl s3Key : String) (expiresAt : Nat)
  | completeOk (ok : Bool) (fileId : String) (sizeBytes : Option Nat) (contentType : String)
  | record (item : FileRecord)
  | shareOk (fileId downloadUrl : String) (expiresAt : Nat)
  | errorBody (msg : String)
deriving DecidableEq, Repr

/-- An HTTP response: status code plus JSON body. -/
structure Resp where
  status : Nat
  body : Body
deriving DecidableEq, Repr

/-- The catch-all error responder (server.js lines 206-209):
`err.statusCode || 500` with body `{"error": err.message}`. -/
def errResp (e : JsError) : Resp :=
  { status := e.statusCode.getD 500, body := .errorBody e.message }

/-- Startup configuration read once from the environment. -/
structure Config where
  s3Bucket : String
  ddbTable : String
  presignExpiresSeconds : Nat
deriving DecidableEq, Repr

/-- Body of `POST /files/presign-upload`. -/
structure PresignBody where
  originalFilename : JsVal
  contentType : JsVal
deriving DecidableEq, Repr

/-- What `HeadObjectCommand` reports on success: `ContentLength` and
`ContentType`, each possibly absent. -/
structure HeadOut where
  contentLength : Option Nat
  contentType : Option String
deriving DecidableEq, Repr

/-- Parameters of the `GetObjectCommand` built by the share handler. -/
structure GetObjectParams where
  bucket : String
  key : String
  responseContentDisposition : String
deriving DecidableEq, Repr

/-- The `GetObjectCommand` the share handler signs (server.js lines 183-187):
the record's bucket/key with an attachment disposition carrying the stored
`originalFilename`. -/
def shareGetCmd (item : FileRecord) : GetObjectParams :=
  { bucket := item.s3Bucket
    key := item.s3Key
    responseContentDisposition :=
      "attachment; filename=\"" ++ item.originalFilename ++ "\"" }

/-- `POST /files/presign-upload` (server.js lines 61-105).  The fresh
`fileId` (uuidv4), the ISO timestamp, the epoch-seconds clock reading and
the outcome of `getSignedUrl` for the PUT command are explicit inputs.  A
thrown error reaches the middleware via `next(e)` with the store untouched;
the record is written only after the URL was produced. -/
def presignUpload (cfg : Config) (store : Store) (body : PresignBody)
    (fileId : String) (nowIso : String) (nowEpochSeconds : Nat)
    (signPut : Except JsError String) : Resp × Store :=
  match requireString body.originalFilename "originalFilename" with
  | .error e => (errResp e, store)
  | .ok originalFilename =>
  match requireString body.contentType "contentType" with
  | .error e => (errResp e, store)
  | .ok contentType =>
      let safeName := sanitize originalFilename
      let s3Key := "uploads/" ++ fileId ++ "/" ++ safeName
      let createdAt := nowIso
      let expiresAt := nowEpochSeconds + cfg.presignExpiresSeconds
      match signPut with
      | .error e => (errResp e, store)
      | .ok uploadUrl =>
          let item : FileRecord :=
            { fileId := fileId
              s3Bucket := cfg.s3Bucket
              s3Key := s3Key
              originalFilename := originalFilename
              contentType := contentType
              status := .uploading
              createdAt := createdAt
              expiresAt := expiresAt
              sizeBytes := none
              downloadCount := some 0 }
          (⟨200, .presignOk fileId uploadUrl s3Key expiresAt⟩,
           store.insert fileId item)

/-- `POST /files/complete` (server.js lines 108-151).  The result of the
`HeadObjectCommand` on the record's bucket/key is an explicit input; the
handler only reaches it after the 404 and status gates. -/
def completeUpload (store : Store) (fileIdVal : JsVal)
    (head : Except JsError HeadOut) : Resp × Store :=
  match requireString fileIdVal "fileId" with
  | .error e => (errResp e, store)
  | .ok fileId =>
  match store fileId with
  | none => (⟨404, .errorBody "fileId not found"⟩, store)
  | some item =>
      if item.status ≠ .uploading then
        (⟨400, .errorBody ("invalid status: " ++ item.status.toString)⟩, store)
      else
        match head with
        | .error e => (errResp e, store)
        | .ok h =>
            let sizeBytes := h.contentLength
            let storedContentType := h.contentType.getD item.contentType
            let item2 :=
              { item with
                  status := .ready
                  sizeBytes := sizeBytes
                  contentType := storedContentType }
            (⟨200, .completeOk true fileId sizeBytes storedContentType⟩,
             store.insert fileId item2)

/-- `GET /files/:fileId` (server.js lines 154-169): return the record
verbatim, 404 if absent.  No store mutation. -/
def getMetadata (store : Store) (fileIdVal : JsVal) : Resp × Store :=
  match requireString fileIdVal "fileId" with
  | .error e => (errResp e, store)
  | .ok fileId =>
  match store fileId with
  | none => (⟨404, .errorBody "not found"⟩, store)
  | some item => (⟨200, .record item⟩, store)

/-- `POST /files/:fileId/share` (server.js lines 172-203).  `signGet` is the
outcome of `getSignedUrl` as a function of the `GetObjectCommand` parameters
the handler builds; the epoch clock reading for the response's `expiresAt`
is explicit.  The `downloadCount` update (`if_not_exists(downloadCount,0)+1`)
happens only after the URL was produced. -/
def shareFile (cfg : Config) (store : Store) (fileIdVal : JsVal)
    (signGet : GetObjectParams → Except JsError String)
    (nowEpochSeconds : Nat) : Resp × Store :=
  match requireString fileIdVal "fileId" with
  | .error e => (errResp e, store)
  | .ok fileId =>
  match store fileId with
  | none => (⟨404, .errorBody "not found"⟩, store)
  | some item =>
      if item.status ≠ .ready then
        (⟨400, .errorBody ("not ready: " ++ item.status.toString)⟩, store)
      else
        match signGet (shareGetCmd item) with
        | .error e => (errResp e, store)
        | .ok downloadUrl =>
            let item2 :=
              { item with
                  downloadCount := some (item.downloadCount.getD 0 + 1) }
            (⟨200, .shareOk fileId downloadUrl
                     (nowEpochSeconds + cfg.presignExpiresSeconds)⟩,
             store.insert fileId item2)

/-- One incoming request to a lifecycle handler, with the environment inputs
(fresh uuid, clock readings, SDK call outcomes) it consumes. -/
inductive Op where
  | presign (body : PresignBody) (fileId nowIso : String) (nowEpoch : Nat)
      (signPut : Except JsError String)
  | complete (fileIdVal : JsVal) (head : Except JsError HeadOut)
  | getMeta (fileIdVal : JsVal)
  | share (fileIdVal : JsVal)
      (signGet : GetObjectParams → Except JsError String) (nowEpoch : Nat)

/-- Dispatch of one request to its handler. -/
def stepOp (cfg : Config) (store : Store) : Op → Resp × Store
  | .presign body fid iso ep sp => presignUpload cfg store body fid iso ep sp
  | .complete v h => completeUpload store v h
  | .getMeta v => getMetadata store v
  | .share v sg ep => shareFile cfg store v sg ep

/-- Whether an operation is a complete-upload request. -/
def Op.isComplete : Op → Prop
  | .complete _ _ => True
  | _ => False

/-- A presign request's uuid is fresh for the current store (uuidv4 never
collides with an existing fileId); other requests are unconstrained. -/
def opFresh (store : Store) : Op → Prop
  | .presign _ fid _ _ _ => store fid = none
  | _ => True

/-- Running a sequence of requests, threading the store. -/
def runOps (cfg : Config) : Store → List Op → Store
  | store, [] => store
  | store, op :: ops => runOps cfg (stepOp cfg store op).2 ops

/-- Every presign request in the trace carries a uuid fresh for the store it
executes against. -/
def FreshTrace (cfg : Config) : Store → List Op → Prop
  | _, [] => True
  | store, op :: ops =>
      opFresh store op ∧ FreshTrace cfg (stepOp cfg store op).2 ops

/-! ## Validation helper lemmas -/

/-- `requireString` rejects exactly the bad inputs, with the documented
400 error naming the field. -/
theorem requireString_error_of_bad (v : JsVal) (name : String)
    (h : jsBadString v = true) :
    requireString v name = .error ⟨some 400, name ++ " is required"⟩ := by
  cases v with
  | str s =>
      simp only [jsBadString, decide_eq_true_eq] at h
      simp [requireString, h]
  | undef => rfl
  | nullV => rfl
  | num n => rfl
  | boolean b => rfl

/-- A successful `requireString` returns the trimmed input string. -/
theorem requireString_ok_trim (s : String) (name t : String)
    (h : requireString (.str s) name = .ok t) : t = jsTrim s := by
  by_cases h1 : s = ""
  · simp [requireString, h1] at h
  · by_cases h2 : jsTrim s = ""
    · simp [requireString, h1, h2] at h
    · simp [requireString, h1, h2] at h
      exact h.symm

/-! ## Sanitization lemmas -/

/-- The run-collapsing flag semantics of `replace(/[^\w.\-]+/g, "_")` agrees
with the direct maximal-run recursion, in both flag states. -/
theorem sanitizeAux_eq_runs (l : List Char) :
    sanitizeAux false l = sanitizeRuns l ∧
    sanitizeAux true l = sanitizeRuns (l.dropWhile (fun d => !(isWordDotDash d))) := by
  induction l with
  | nil => constructor <;> simp [sanitizeAux, sanitizeRuns, List.dropWhile]
  | cons c cs ih =>
      by_cases h : isWordDotDash c = true
      · constructor
        · simp only [sanitizeAux, sanitizeRuns, h, if_true]
          exact congrArg (List.cons c) ih.1
        · simp only [sanitizeAux, List.dropWhile, h, Bool.not_true, sanitizeRuns, if_true]
          exact congrArg (List.cons c) ih.1
      · have hb : isWordDotDash c = false := by
          cases hc : isWordDotDash c
          · rfl
          · exact absurd hc h
        constructor
        · simp only [sanitizeAux, sanitizeRuns, hb, Bool.false_eq_true, if_false]
          exact congrArg (List.cons '_') ih.2
        · simp only [sanitizeAux, List.dropWhile, hb, Bool.not_false, if_true,
            Bool.false_eq_true, if_false]
          exact ih.2

/-- Decidable equality for handler-call outcomes, so concrete runs of the
embedded handlers can be checked by evaluation. -/
instance {ε α : Type} [DecidableEq ε] [DecidableEq α] :
    DecidableEq (Except ε α) := fun a b =>
  match a, b with
  | .error e1, .error e2 =>
      if h : e1 = e2 then isTrue (by rw [h])
      else isFalse (fun hc => by cases hc; exact h rfl)
  | .ok a1, .ok a2 =>
      if h : a1 = a2 then isTrue (by rw [h])
      else isFalse (fun hc => by cases hc; exact h rfl)
  | .error _, .ok _ => isFalse (fun hc => by cases hc)
  | .ok _, .error _ => isFalse (fun hc => by cases hc)

/-! ## Concrete fixtures used to evaluate the handlers on closed inputs -/

/-- An empty metadata table. -/
def emptyStore : Store := fun _ => none

/-- A sample startup configuration. -/
def cfgW : Config := { s3Bucket := "bkt", ddbTable := "tbl", presignExpiresSeconds := 900 }

/-- A sample record in the UPLOADING state, as presign-upload creates it. -/
def recUploading : FileRecord :=
  { fileId := "f1"
    s3Bucket := "bkt"
    s3Key := "uploads/f1/a.pdf"
    originalFilename := "a.pdf"
    contentType := "text/plain"
    status := .uploading
    createdAt := "2026-01-01T00:00:00.000Z"
    expiresAt := 1000
    sizeBytes := none
    downloadCount := some 0 }

/-- A table holding only `recUploading` under key `"f1"`. -/
def storeU : Store := fun k => if k = "f1" then some recUploading else none

/-- A sample record in the READY state, as complete-upload leaves it. -/
def recReady : FileRecord :=
  { recUploading with status := .ready, sizeBytes := some 5 }

/-- A table holding only `recReady` under key `"f1"`. -/
def storeR : Store := fun k => if k = "f1" then some recReady else none

/-! ## C1: filename sanitization in the storage key -/

/-- Claim C1 is false on the code: on the spec's own example
`"my file (1).pdf"` the storage-key segment produced by
`replace(/[^\w.\-]+/g, "_")` is `"my_file_1_.pdf"` (the run made of a space
and `(` collapses to one underscore), not the claimed per-character
replacement `"my_file__1_.pdf"` (which is what `sanitizePerChar` yields). -/
theorem sanitize_example_collapses :
    sanitize "my file (1).pdf" = "my_file_1_.pdf" ∧
    sanitize "my file (1).pdf" ≠ "my_file__1_.pdf" ∧
    sanitizePerChar "my file (1).pdf" = "my_file__1_.pdf" :=
  ⟨by decide, by decide, by decide⟩

/-- Claim C1 (amended): the storage-key segment replaces each maximal run of
consecutive characters outside `[A-Za-z0-9_.-]` with a single underscore
(consecutive bad characters are collapsed into one), so the input
`"my file (1).pdf"` yields the key segment `"my_file_1_.pdf"`. -/
theorem sanitize_replaces_runs :
    (∀ s : String, sanitize s = String.mk (sanitizeRuns s.data)) ∧
    sanitize "my file (1).pdf" = "my_file_1_.pdf" := by
  constructor
  · intro s
    exact congrArg String.mk (sanitizeAux_eq_runs s.data).1
  · decide

/-! ## C8: required-field validation across all handlers -/

/-- Claim C8: for every required string field of every handler
(`originalFilename` and `contentType` of presign-upload, `fileId` of
complete-upload, get-metadata and create-share-link), a value that is
missing, not a string, or blank after trimming yields HTTP 400 with body
message `"<field> is required"` naming that field, with the store untouched
(no store call is reached). -/
theorem required_field_validation (cfg : Config) (store : Store) :
    (∀ v ct fid iso ep sp, jsBadString v = true →
      presignUpload cfg store ⟨v, ct⟩ fid iso ep sp =
        (⟨400, .errorBody "originalFilename is required"⟩, store)) ∧
    (∀ ofn v fid iso ep sp name,
      requireString ofn "originalFilename" = .ok name → jsBadString v = true →
      presignUpload cfg store ⟨ofn, v⟩ fid iso ep sp =
        (⟨400, .errorBody "contentType is required"⟩, store)) ∧
    (∀ v hd, jsBadString v = true →
      completeUpload store v hd =
        (⟨400, .errorBody "fileId is required"⟩, store)) ∧
    (∀ v, jsBadString v = true →
      getMetadata store v = (⟨400, .errorBody "fileId is required"⟩, store)) ∧
    (∀ v sg ep, jsBadString v = true →
      shareFile cfg store v sg ep =
        (⟨400, .errorBody "fileId is required"⟩, store)) := by
  refine ⟨?_, ?_, ?_, ?_, ?_⟩
  · intro v ct fid iso ep sp hv
    simp [presignUpload, requireString_error_of_bad v "originalFilename" hv, errResp]
  · intro ofn v fid iso ep sp name hofn hv
    simp [presignUpload, hofn, requireString_error_of_bad v "contentType" hv, errResp]
  · intro v hd hv
    simp [completeUpload, requireString_error_of_bad v "fileId" hv, errResp]
  · intro v hv
    simp [getMetadata, requireString_error_of_bad v "fileId" hv, errResp]
  · intro v sg ep hv
    simp [shareFile, requireString_error_of_bad v "fileId" hv, errResp]

/-- Concrete instance of C8: completing with a blank `fileId` fails 400
naming the field and leaves the empty table unchanged. -/
theorem required_field_validation_witness :
    completeUpload emptyStore (.str " ") (.error ⟨none, "net"⟩) =
      (⟨400, .errorBody "fileId is required"⟩, emptyStore) :=
  (required_field_validation cfgW emptyStore).2.2.1 (.str " ")
    (.error ⟨none, "net"⟩) (by decide)

/-! ## Complete-upload lemmas -/

/-- The success branch of the complete handler: with a valid `fileId`, an
UPLOADING record, and a successful HEAD, the record gets status READY,
`sizeBytes` from the HEAD (null when absent), and `contentType` from the
HEAD falling back to the declared value; the response reports them. -/
theorem completeUpload_ok_eq (store : Store) (v : JsVal) (fid : String)
    (item : FileRecord) (h : HeadOut)
    (hreq : requireString v "fileId" = .ok fid)
    (hstore : store fid = some item)
    (hstatus : item.status = .uploading) :
    completeUpload store v (.ok h) =
      (⟨200, .completeOk true fid h.contentLength (h.contentType.getD item.contentType)⟩,
       store.insert fid
         { item with
             status := .ready
             sizeBytes := h.contentLength
             contentType := h.contentType.getD item.contentType }) := by
  simp [completeUpload, hreq, hstore, hstatus]

/-! ## C2: successful completion updates exactly status, sizeBytes, contentType -/

/-- Claim C2: for a record in status UPLOADING, a successful complete-upload
updates exactly status (to READY), sizeBytes (to the store-reported size,
null when none) and contentType (store-reported, falling back to the
declared one), and the response carries ok, fileId, the new sizeBytes and
the new contentType. -/
theorem complete_updates_record (store : Store) (v : JsVal) (fid : String)
    (item : FileRecord) (h : HeadOut)
    (hreq : requireString v "fileId" = .ok fid)
    (hstore : store fid = some item)
    (hstatus : item.status = .uploading) :
    completeUpload store v (.ok h) =
      (⟨200, .completeOk true fid h.contentLength (h.contentType.getD item.contentType)⟩,
       store.insert fid
         { item with
             status := .ready
             sizeBytes := h.contentLength
             contentType := h.contentType.getD item.contentType }) :=
  completeUpload_ok_eq store v fid item h hreq hstore hstatus

/-- Concrete instance of C2: completing the sample UPLOADING record with a
HEAD reporting size 5 and type "application/pdf". -/
theorem complete_updates_record_witness :
    completeUpload storeU (.str "f1") (.ok ⟨some 5, some "application/pdf"⟩) =
      (⟨200, .completeOk true "f1" (some 5) "application/pdf"⟩,
       storeU.insert "f1"
         { recUploading with
             status := .ready
             sizeBytes := some 5
             contentType := "application/pdf" }) :=
  complete_updates_record storeU (.str "f1") "f1" recUploading
    ⟨some 5, some "application/pdf"⟩ (by decide) (by decide) (by decide)

/-! ## C3: completion rejections (404, status gate, double completion) -/

/-- Claim C3: complete-upload returns 404 when no record exists, 400 with a
message naming the current status when the record is not UPLOADING, and a
second completion after a successful one fails 400 "invalid status: READY"
without re-applying the update. -/
theorem complete_rejection_gates (store : Store) (v : JsVal) (fid : String)
    (hreq : requireString v "fileId" = .ok fid) :
    (store fid = none → ∀ hd,
      completeUpload store v hd =
        (⟨404, .errorBody "fileId not found"⟩, store)) ∧
    (∀ item, store fid = some item → item.status ≠ .uploading → ∀ hd,
      completeUpload store v hd =
        (⟨400, .errorBody ("invalid status: " ++ item.status.toString)⟩, store)) ∧
    (∀ item hd hd2, store fid = some item → item.status = .uploading →
      (completeUpload store v (.ok hd)).1.status = 200 ∧
      Option.map FileRecord.status ((completeUpload store v (.ok hd)).2 fid) =
        some .ready ∧
      completeUpload (completeUpload store v (.ok hd)).2 v hd2 =
        (⟨400, .errorBody "invalid status: READY"⟩,
         (completeUpload store v (.ok hd)).2)) := by
  refine ⟨?_, ?_, ?_⟩
  · intro hnone hd
    simp [completeUpload, hreq, hnone]
  · intro item hitem hst hd
    simp [completeUpload, hreq, hitem, hst]
  · intro item hd hd2 hitem hst
    rw [completeUpload_ok_eq store v fid item hd hreq hitem hst]
    refine ⟨rfl, ?_, ?_⟩
    · simp [Store.insert]
    · simp [completeUpload, hreq, Store.insert, Status.toString]

/-- Concrete instance of C3: the double-completion scenario on the sample
UPLOADING record. -/
theorem complete_rejection_gates_witness :
    (completeUpload storeU (.str "f1") (.ok ⟨some 5, none⟩)).1.status = 200 ∧
    Option.map FileRecord.status
      ((completeUpload storeU (.str "f1") (.ok ⟨some 5, none⟩)).2 "f1") =
      some .ready ∧
    completeUpload (completeUpload storeU (.str "f1") (.ok ⟨some 5, none⟩)).2
        (.str "f1") (.ok ⟨some 5, none⟩) =
      (⟨400, .errorBody "invalid status: READY"⟩,
       (completeUpload storeU (.str "f1") (.ok ⟨some 5, none⟩)).2) :=
  (complete_rejection_gates storeU (.str "f1") "f1" (by decide)).2.2
    recUploading ⟨some 5, none⟩ (.ok ⟨some 5, none⟩) (by decide) (by decide)

/-! ## Share-link lemmas -/

/-- The success branch of the share handler: with a valid `fileId`, a READY
record and a successfully signed GET URL for the command built from the
record, the response carries the URL and a fresh expiry, and the record's
`downloadCount` is bumped (missing counter read as 0). -/
theorem shareFile_ok_eq (cfg : Config) (store : Store) (v : JsVal)
    (fid : String) (item : FileRecord)
    (sg : GetObjectParams → Except JsError String) (ep : Nat) (url : String)
    (hreq : requireString v "fileId" = .ok fid)
    (hstore : store fid = some item)
    (hstatus : item.status = .ready)
    (hsign : sg (shareGetCmd item) = .ok url) :
    shareFile cfg store v sg ep =
      (⟨200, .shareOk fid url (ep + cfg.presignExpiresSeconds)⟩,
       store.insert fid
         { item with downloadCount := some (item.downloadCount.getD 0 + 1) }) := by
  simp [shareFile, hreq, hstore, hstatus, hsign]

/-! ## C4: share-link status gates -/

/-- Claim C4: create-share-link returns 404 when the fileId has no record,
and a 400 error whose message includes the current status when the record is
not READY ("not ready: UPLOADING" for an uploading record); in those cases
the store is unchanged and no download URL is issued. -/
theorem share_rejection_gates (cfg : Config) (store : Store) (v : JsVal)
    (fid : String) (hreq : requireString v "fileId" = .ok fid) :
    (store fid = none → ∀ sg ep,
      shareFile cfg store v sg ep = (⟨404, .errorBody "not found"⟩, store)) ∧
    (∀ item, store fid = some item → item.status ≠ .ready → ∀ sg ep,
      shareFile cfg store v sg ep =
        (⟨400, .errorBody ("not ready: " ++ item.status.toString)⟩, store)) ∧
    (∀ item, store fid = some item → item.status = .uploading → ∀ sg ep,
      shareFile cfg store v sg ep =
        (⟨400, .errorBody "not ready: UPLOADING"⟩, store)) := by
  refine ⟨?_, ?_, ?_⟩
  · intro hnone sg ep
    simp [shareFile, hreq, hnone]
  · intro item hitem hst sg ep
    simp [shareFile, hreq, hitem, hst]
  · intro item hitem hst sg ep
    simp [shareFile, hreq, hitem, hst, Status.toString]

/-- Concrete instance of C4: sharing the sample record that is still
UPLOADING fails 400 "not ready: UPLOADING" and leaves the table unchanged. -/
theorem share_rejection_gates_witness :
    shareFile cfgW storeU (.str "f1") (fun _ => .ok "u") 0 =
      (⟨400, .errorBody "not ready: UPLOADING"⟩, storeU) :=
  (share_rejection_gates cfgW storeU (.str "f1") "f1" (by decide)).2.2
    recUploading (by decide) (by decide) (fun _ => .ok "u") 0

/-! ## C5: share increments downloadCount by exactly one -/

/-- Claim C5: every successful create-share-link call on a READY record
increments that record's downloadCount by exactly 1 (a missing counter is
read as 0) and changes no other field of the record (and no other record). -/
theorem share_increments_download_count (cfg : Config) (store : Store)
    (v : JsVal) (fid : String) (item : FileRecord)
    (sg : GetObjectParams → Except JsError String) (ep : Nat) (url : String)
    (hreq : requireString v "fileId" = .ok fid)
    (hstore : store fid = some item)
    (hstatus : item.status = .ready)
    (hsign : sg (shareGetCmd item) = .ok url) :
    (shareFile cfg store v sg ep).2 fid =
      some { item with downloadCount := some (item.downloadCount.getD 0 + 1) } ∧
    ∀ k, k ≠ fid → (shareFile cfg store v sg ep).2 k = store k := by
  rw [shareFile_ok_eq cfg store v fid item sg ep url hreq hstore hstatus hsign]
  constructor
  · simp [Store.insert]
  · intro k hk
    simp [Store.insert, hk]

/-- Concrete instance of C5: sharing the sample READY record bumps its
counter from 0 to 1 and touches nothing else. -/
theorem share_increments_download_count_witness :
    (shareFile cfgW storeR (.str "f1") (fun _ => .ok "u") 0).2 "f1" =
      some { recReady with
               downloadCount := some (recReady.downloadCount.getD 0 + 1) } ∧
    ∀ k, k ≠ "f1" →
      (shareFile cfgW storeR (.str "f1") (fun _ => .ok "u") 0).2 k = storeR k :=
  share_increments_download_count cfgW storeR (.str "f1") "f1" recReady
    (fun _ => .ok "u") 0 "u" (by decide) (by decide) (by decide) rfl

/-! ## Presign-upload lemmas -/

/-- The success branch of the presign handler: with valid inputs and a
successfully signed PUT URL, the response carries the fileId, URL, key and
expiry, and the table gets the new UPLOADING record. -/
theorem presignUpload_ok_eq (cfg : Config) (store : Store) (body : PresignBody)
    (name ctv fid iso url : String) (ep : Nat)
    (hofn : requireString body.originalFilename "originalFilename" = .ok name)
    (hct : requireString body.contentType "contentType" = .ok ctv) :
    presignUpload cfg store body fid iso ep (.ok url) =
      (⟨200, .presignOk fid url ("uploads/" ++ fid ++ "/" ++ sanitize name)
          (ep + cfg.presignExpiresSeconds)⟩,
       store.insert fid
         { fileId := fid
           s3Bucket := cfg.s3Bucket
           s3Key := "uploads/" ++ fid ++ "/" ++ sanitize name
           originalFilename := name
           contentType := ctv
           status := .uploading
           createdAt := iso
           expiresAt := ep + cfg.presignExpiresSeconds
           sizeBytes := none
           downloadCount := some 0 }) := by
  simp [presignUpload, hofn, hct]

/-! ## C6: presign creates exactly one fresh UPLOADING record -/

/-- Claim C6: for valid inputs, presign-upload creates exactly one new
record under the fresh fileId (overwriting nothing: every other key is
untouched and the fileId had no record), with status UPLOADING,
downloadCount 0, createdAt now and expiresAt now + expiry window; the
response carries fileId, upload URL, storage key and that expiresAt. -/
theorem presign_creates_fresh_record (cfg : Config) (store : Store)
    (body : PresignBody) (name ctv fid iso url : String) (ep : Nat)
    (hofn : requireString body.originalFilename "originalFilename" = .ok name)
    (hct : requireString body.contentType "contentType" = .ok ctv)
    (_hfresh : store fid = none) :
    (presignUpload cfg store body fid iso ep (.ok url)).1 =
      ⟨200, .presignOk fid url ("uploads/" ++ fid ++ "/" ++ sanitize name)
        (ep + cfg.presignExpiresSeconds)⟩ ∧
    (presignUpload cfg store body fid iso ep (.ok url)).2 fid =
      some
        { fileId := fid
          s3Bucket := cfg.s3Bucket
          s3Key := "uploads/" ++ fid ++ "/" ++ sanitize name
          originalFilename := name
          contentType := ctv
          status := .uploading
          createdAt := iso
          expiresAt := ep + cfg.presignExpiresSeconds
          sizeBytes := none
          downloadCount := some 0 } ∧
    (∀ k, k ≠ fid → (presignUpload cfg store body fid iso ep (.ok url)).2 k = store k) := by
  rw [presignUpload_ok_eq cfg store body name ctv fid iso url ep hofn hct]
  refine ⟨rfl, ?_, ?_⟩
  · simp [Store.insert]
  · intro k hk
    simp [Store.insert, hk]

/-- Concrete instance of C6: presigning "a.pdf" into an empty table. -/
theorem presign_creates_fresh_record_witness :
    (presignUpload cfgW emptyStore ⟨.str "a.pdf", .str "text/plain"⟩
        "id1" "2026-01-01T00:00:00.000Z" 100 (.ok "u")).1 =
      ⟨200, .presignOk "id1" "u" ("uploads/" ++ "id1" ++ "/" ++ sanitize "a.pdf")
        (100 + cfgW.presignExpiresSeconds)⟩ ∧
    (presignUpload cfgW emptyStore ⟨.str "a.pdf", .str "text/plain"⟩
        "id1" "2026-01-01T00:00:00.000Z" 100 (.ok "u")).2 "id1" =
      some
        { fileId := "id1"
          s3Bucket := cfgW.s3Bucket
          s3Key := "uploads/" ++ "id1" ++ "/" ++ sanitize "a.pdf"
          originalFilename := "a.pdf"
          contentType := "text/plain"
          status := .uploading
          createdAt := "2026-01-01T00:00:00.000Z"
          expiresAt := 100 + cfgW.presignExpiresSeconds
          sizeBytes := none
          downloadCount := some 0 } ∧
    (∀ k, k ≠ "id1" →
      (presignUpload cfgW emptyStore ⟨.str "a.pdf", .str "text/plain"⟩
          "id1" "2026-01-01T00:00:00.000Z" 100 (.ok "u")).2 k = emptyStore k) :=
  presign_creates_fresh_record cfgW emptyStore ⟨.str "a.pdf", .str "text/plain"⟩
    "a.pdf" "text/plain" "id1" "2026-01-01T00:00:00.000Z" "u" 100
    (by decide) (by decide) rfl

/-! ## C9: upstream failures abort the request with the store unchanged -/

/-- Claim C9: when the object-store call inside a handler fails, the request
aborts with an error and the metadata store is unchanged: presign writes the
record only after the PUT URL is signed, complete updates only after the
HEAD succeeds, share bumps the counter only after the GET URL is signed. -/
theorem upstream_failure_leaves_store (cfg : Config) (store : Store) :
    (∀ body fid iso ep e,
      (presignUpload cfg store body fid iso ep (.error e)).2 = store) ∧
    (∀ body name ctv fid iso ep e,
      requireString body.originalFilename "originalFilename" = .ok name →
      requireString body.contentType "contentType" = .ok ctv →
      presignUpload cfg store body fid iso ep (.error e) = (errResp e, store)) ∧
    (∀ v e, (completeUpload store v (.error e)).2 = store) ∧
    (∀ v fid item e, requireString v "fileId" = .ok fid →
      store fid = some item → item.status = .uploading →
      completeUpload store v (.error e) = (errResp e, store)) ∧
    (∀ v ep e, (shareFile cfg store v (fun _ => .error e) ep).2 = store) ∧
    (∀ v fid item sg ep e, requireString v "fileId" = .ok fid →
      store fid = some item → item.status = .ready →
      sg (shareGetCmd item) = .error e →
      shareFile cfg store v sg ep = (errResp e, store)) := by
  refine ⟨?_, ?_, ?_, ?_, ?_, ?_⟩
  · intro body fid iso ep e
    rcases h1 : requireString body.originalFilename "originalFilename" with e1 | name
    · simp [presignUpload, h1]
    · rcases h2 : requireString body.contentType "contentType" with e2 | ctv
      · simp [presignUpload, h1, h2]
      · simp [presignUpload, h1, h2]
  · intro body name ctv fid iso ep e hofn hct
    simp [presignUpload, hofn, hct]
  · intro v e
    rcases h1 : requireString v "fileId" with e1 | fid
    · simp [completeUpload, h1]
    · rcases h2 : store fid with _ | item
      · simp [completeUpload, h1, h2]
      · by_cases h3 : item.status = .uploading
        · simp [completeUpload, h1, h2, h3]
        · simp [completeUpload, h1, h2, h3]
  · intro v fid item e hreq hstore hstatus
    simp [completeUpload, hreq, hstore, hstatus]
  · intro v ep e
    rcases h1 : requireString v "fileId" with e1 | fid
    · simp [shareFile, h1]
    · rcases h2 : store fid with _ | item
      · simp [shareFile, h1, h2]
      · by_cases h3 : item.status = .ready
        · simp [shareFile, h1, h2, h3]
        · simp [shareFile, h1, h2, h3]
  · intro v fid item sg ep e hreq hstore hstatus hsign
    simp [shareFile, hreq, hstore, hstatus, hsign]

/-- Concrete instance of C9: a failed HEAD on the sample UPLOADING record
surfaces the raw error (500) and leaves the table unchanged. -/
theorem upstream_failure_leaves_store_witness :
    completeUpload storeU (.str "f1") (.error ⟨none, "NotFound"⟩) =
      (errResp ⟨none, "NotFound"⟩, storeU) :=
  (upstream_failure_leaves_store cfgW storeU).2.2.2.1 (.str "f1") "f1"
    recUploading ⟨none, "NotFound"⟩ (by decide) (by decide) (by decide)

/-! ## C10: originalFilename retention and download disposition -/

/-- Claim C10 is false on the code as stated: `requireString` returns
`val.trim()`, so for the input `" a.pdf "` the stored `originalFilename` is
the trimmed `"a.pdf"`, not an unmodified copy of the supplied value. -/
theorem presign_originalFilename_not_verbatim :
    Option.map FileRecord.originalFilename
      ((presignUpload cfgW emptyStore ⟨.str " a.pdf ", .str "text/plain"⟩
          "id1" "2026-01-01T00:00:00.000Z" 100 (.ok "u")).2 "id1") =
      some "a.pdf" ∧
    Option.map FileRecord.originalFilename
      ((presignUpload cfgW emptyStore ⟨.str " a.pdf ", .str "text/plain"⟩
          "id1" "2026-01-01T00:00:00.000Z" 100 (.ok "u")).2 "id1") ≠
      some " a.pdf " :=
  ⟨by decide, by decide⟩

/-- Claim C10 (amended): presign-upload stores the trimmed user-supplied
originalFilename (whitespace-trimmed by validation, but otherwise unmodified
and unsanitized), and create-share-link uses exactly that stored value as
the filename in the "attachment" content-disposition of the GET command it
signs, whose URL it returns. -/
theorem original_filename_trim_and_disposition (cfg : Config) (store : Store) :
    (∀ body name ctv fid iso ep url,
      requireString body.originalFilename "originalFilename" = .ok name →
      requireString body.contentType "contentType" = .ok ctv →
      Option.map FileRecord.originalFilename
        ((presignUpload cfg store body fid iso ep (.ok url)).2 fid) = some name) ∧
    (∀ s name, requireString (.str s) "originalFilename" = .ok name →
      name = jsTrim s) ∧
    (∀ item : FileRecord, (shareGetCmd item).responseContentDisposition =
      "attachment; filename=\"" ++ item.originalFilename ++ "\"") ∧
    (∀ v fid item sg ep url, requireString v "fileId" = .ok fid →
      store fid = some item → item.status = .ready →
      sg (shareGetCmd item) = .ok url →
      (shareFile cfg store v sg ep).1 =
        ⟨200, .shareOk fid url (ep + cfg.presignExpiresSeconds)⟩) := by
  refine ⟨?_, ?_, ?_, ?_⟩
  · intro body name ctv fid iso ep url hofn hct
    rw [presignUpload_ok_eq cfg store body name ctv fid iso url ep hofn hct]
    simp [Store.insert]
  · intro s name h
    exact requireString_ok_trim s "originalFilename" name h
  · intro item
    rfl
  · intro v fid item sg ep url hreq hstore hstatus hsign
    rw [shareFile_ok_eq cfg store v fid item sg ep url hreq hstore hstatus hsign]

/-- Concrete instance of amended C10: the stored filename is the trimmed
input, and the share disposition names it. -/
theorem original_filename_trim_and_disposition_witness :
    Option.map FileRecord.originalFilename
      ((presignUpload cfgW emptyStore ⟨.str "a one.pdf", .str "text/plain"⟩
          "id1" "2026-01-01T00:00:00.000Z" 100 (.ok "u")).2 "id1") =
      some "a one.pdf" :=
  (original_filename_trim_and_disposition cfgW emptyStore).1
    ⟨.str "a one.pdf", .str "text/plain"⟩ "a one.pdf" "text/plain"
    "id1" "2026-01-01T00:00:00.000Z" 100 "u" (by decide) (by decide)

/-! ## Status-transition lemmas -/

/-- How one request can change the record at a key that already exists:
the record survives (never deleted), and its status only changes when the
request is a complete-upload, from UPLOADING to READY.  Presign requests
need their uuid to be fresh, which is what uuidv4 provides. -/
theorem stepOp_record_evolution (cfg : Config) (store : Store) (op : Op)
    (k : String) (r : FileRecord)
    (hfresh : opFresh store op) (hk : store k = some r) :
    ∃ r2, (stepOp cfg store op).2 k = some r2 ∧
      (r2.status ≠ r.status →
        Op.isComplete op ∧ r.status = .uploading ∧ r2.status = .ready) := by
  cases op with
  | presign body fid iso ep sp =>
      have hfid : store fid = none := hfresh
      have hkne : k ≠ fid := by
        intro hkf
        rw [hkf, hfid] at hk
        exact Option.noConfusion hk
      rcases h1 : requireString body.originalFilename "originalFilename" with e1 | name
      · exact ⟨r, by simp [stepOp, presignUpload, h1, hk], fun hne => absurd rfl hne⟩
      · rcases h2 : requireString body.contentType "contentType" with e2 | ctv
        · exact ⟨r, by simp [stepOp, presignUpload, h1, h2, hk], fun hne => absurd rfl hne⟩
        · rcases h3 : sp with e3 | url
          · exact ⟨r, by simp [stepOp, presignUpload, h1, h2, hk], fun hne => absurd rfl hne⟩
          · refine ⟨r, ?_, fun hne => absurd rfl hne⟩
            simp [stepOp, presignUpload, h1, h2, Store.insert, hkne, hk]
  | complete v hd =>
      rcases h1 : requireString v "fileId" with e1 | fid
      · exact ⟨r, by simp [stepOp, completeUpload, h1, hk], fun hne => absurd rfl hne⟩
      · rcases h2 : store fid with _ | item
        · exact ⟨r, by simp [stepOp, completeUpload, h1, h2, hk], fun hne => absurd rfl hne⟩
        · by_cases h3 : item.status = .uploading
          · rcases h4 : hd with e4 | hout
            · exact ⟨r, by simp [stepOp, completeUpload, h1, h2, h3, hk],
                fun hne => absurd rfl hne⟩
            · by_cases hkf : k = fid
              · subst hkf
                have hir : item = r := by
                  rw [hk] at h2
                  exact (Option.some.inj h2).symm
                refine ⟨{ item with
                            status := .ready
                            sizeBytes := hout.contentLength
                            contentType := hout.contentType.getD item.contentType },
                        ?_, ?_⟩
                · simp [stepOp, completeUpload, h1, h2, h3, Store.insert]
                · intro _
                  refine ⟨trivial, ?_, rfl⟩
                  rw [← hir]
                  exact h3
              · refine ⟨r, ?_, fun hne => absurd rfl hne⟩
                simp [stepOp, completeUpload, h1, h2, h3, Store.insert, hkf, hk]
          · exact ⟨r, by simp [stepOp, completeUpload, h1, h2, h3, hk],
              fun hne => absurd rfl hne⟩
  | getMeta v =>
      refine ⟨r, ?_, fun hne => absurd rfl hne⟩
      rcases h1 : requireString v "fileId" with e1 | fid
      · simp [stepOp, getMetadata, h1, hk]
      · rcases h2 : store fid with _ | item
        · simp [stepOp, getMetadata, h1, h2, hk]
        · simp [stepOp, getMetadata, h1, h2, hk]
  | share v sg ep =>
      rcases h1 : requireString v "fileId" with e1 | fid
      · exact ⟨r, by simp [stepOp, shareFile, h1, hk], fun hne => absurd rfl hne⟩
      · rcases h2 : store fid with _ | item
        · exact ⟨r, by simp [stepOp, shareFile, h1, h2, hk], fun hne => absurd rfl hne⟩
        · by_cases h3 : item.status = .ready
          · rcases h4 : sg (shareGetCmd item) with e4 | url
            · exact ⟨r, by simp [stepOp, shareFile, h1, h2, h3, h4, hk],
                fun hne => absurd rfl hne⟩
            · by_cases hkf : k = fid
              · subst hkf
                have hir : item = r := by
                  rw [hk] at h2
                  exact (Option.some.inj h2).symm
                refine ⟨{ item with
                            downloadCount := some (item.downloadCount.getD 0 + 1) },
                        ?_, ?_⟩
                · simp [stepOp, shareFile, h1, h2, h3, h4, Store.insert]
                · intro hne
                  exact absurd (by rw [← hir]) hne
              · refine ⟨r, ?_, fun hne => absurd rfl hne⟩
                simp [stepOp, shareFile, h1, h2, h3, h4, Store.insert, hkf, hk]
          · exact ⟨r, by simp [stepOp, shareFile, h1, h2, h3, hk],
              fun hne => absurd rfl hne⟩

/-- A record appearing at a key that previously had none can only come from
the presign handler, which creates it in status UPLOADING. -/
theorem stepOp_new_record_uploading (cfg : Config) (store : Store) (op : Op)
    (k : String) (r2 : FileRecord)
    (hk : store k = none) (h2 : (stepOp cfg store op).2 k = some r2) :
    r2.status = .uploading := by
  cases op with
  | presign body fid iso ep sp =>
      rcases h1 : requireString body.originalFilename "originalFilename" with e1 | name
      · simp [stepOp, presignUpload, h1, hk] at h2
      · rcases h2c : requireString body.contentType "contentType" with e2 | ctv
        · simp [stepOp, presignUpload, h1, h2c, hk] at h2
        · rcases h3 : sp with e3 | url
          · simp [stepOp, presignUpload, h1, h2c, h3, hk] at h2
          · by_cases hkf : k = fid
            · subst hkf
              simp [stepOp, presignUpload, h1, h2c, h3, Store.insert] at h2
              rw [← h2]
            · simp [stepOp, presignUpload, h1, h2c, h3, Store.insert, hkf, hk] at h2
  | complete v hd =>
      rcases h1 : requireString v "fileId" with e1 | fid
      · simp [stepOp, completeUpload, h1, hk] at h2
      · rcases hs : store fid with _ | item
        · simp [stepOp, completeUpload, h1, hs, hk] at h2
        · by_cases h3 : item.status = .uploading
          · rcases h4 : hd with e4 | hout
            · simp [stepOp, completeUpload, h1, hs, h3, h4, hk] at h2
            · by_cases hkf : k = fid
              · subst hkf
                rw [hk] at hs
                exact Option.noConfusion hs
              · simp [stepOp, completeUpload, h1, hs, h3, h4, Store.insert, hkf, hk] at h2
          · simp [stepOp, completeUpload, h1, hs, h3, hk] at h2
  | getMeta v =>
      rcases h1 : requireString v "fileId" with e1 | fid
      · simp [stepOp, getMetadata, h1, hk] at h2
      · rcases hs : store fid with _ | item
        · simp [stepOp, getMetadata, h1, hs, hk] at h2
        · simp [stepOp, getMetadata, h1, hs, hk] at h2
  | share v sg ep =>
      rcases h1 : requireString v "fileId" with e1 | fid
      · simp [stepOp, shareFile, h1, hk] at h2
      · rcases hs : store fid with _ | item
        · simp [stepOp, shareFile, h1, hs, hk] at h2
        · by_cases h3 : item.status = .ready
          · rcases h4 : sg (shareGetCmd item) with e4 | url
            · simp [stepOp, shareFile, h1, hs, h3, h4, hk] at h2
            · by_cases hkf : k = fid
              · subst hkf
                rw [hk] at hs
                exact Option.noConfusion hs
              · simp [stepOp, shareFile, h1, hs, h3, h4, Store.insert, hkf, hk] at h2
          · simp [stepOp, shareFile, h1, hs, h3, hk] at h2

/-- Over any trace whose presign uuids are fresh, an existing record
survives and a READY status is never lost. -/
theorem runOps_preserves_ready (cfg : Config) :
    ∀ ops store k r, FreshTrace cfg store ops → store k = some r →
      ∃ r2, runOps cfg store ops k = some r2 ∧
        (r.status = .ready → r2.status = .ready) := by
  intro ops
  induction ops with
  | nil =>
      intro store k r _ hk
      exact ⟨r, hk, fun h => h⟩
  | cons op ops ih =>
      intro store k r hft hk
      obtain ⟨hfresh, hft2⟩ := hft
      obtain ⟨r1, hr1, htrans⟩ := stepOp_record_evolution cfg store op k r hfresh hk
      obtain ⟨r2, hr2, h12⟩ := ih (stepOp cfg store op).2 k r1 hft2 hr1
      refine ⟨r2, hr2, fun hready => ?_⟩
      by_cases hsame : r1.status = r.status
      · exact h12 (by rw [hsame, hready])
      · obtain ⟨_, hup, _⟩ := htrans hsame
        rw [hready] at hup
        exact Status.noConfusion hup

/-! ## C7: status only moves UPLOADING → READY, only via complete-upload -/

/-- Claim C7: across every sequence of requests with fresh presign uuids,
a record's status field only moves from UPLOADING to READY and never back,
the only request kind that changes a status is complete-upload, records are
created UPLOADING, and no request deletes a record. -/
theorem status_transitions_monotone (cfg : Config) :
    (∀ store op k r r2, opFresh store op → store k = some r →
      (stepOp cfg store op).2 k = some r2 → r2.status ≠ r.status →
      Op.isComplete op ∧ r.status = .uploading ∧ r2.status = .ready) ∧
    (∀ store op k r, opFresh store op → store k = some r →
      ∃ r2, (stepOp cfg store op).2 k = some r2) ∧
    (∀ store op k r2, store k = none → (stepOp cfg store op).2 k = some r2 →
      r2.status = .uploading) ∧
    (∀ store ops k r, FreshTrace cfg store ops → store k = some r →
      ∃ r2, runOps cfg store ops k = some r2 ∧
        (r.status = .ready → r2.status = .ready)) := by
  refine ⟨?_, ?_, ?_, ?_⟩
  · intro store op k r r2 hfresh hk h2 hne
    obtain ⟨r2x, hr2x, htrans⟩ := stepOp_record_evolution cfg store op k r hfresh hk
    rw [h2] at hr2x
    obtain rfl := Option.some.inj hr2x
    exact htrans hne
  · intro store op k r hfresh hk
    obtain ⟨r2, hr2, _⟩ := stepOp_record_evolution cfg store op k r hfresh hk
    exact ⟨r2, hr2⟩
  · intro store op k r2 hk h2
    exact stepOp_new_record_uploading cfg store op k r2 hk h2
  · intro store ops k r hft hk
    exact runOps_preserves_ready cfg ops store k r hft hk

/-- Concrete instance of C7: over the trace [get-metadata "f1"] the sample
READY record survives with status READY. -/
theorem status_transitions_monotone_witness :
    ∃ r2, runOps cfgW storeR [Op.getMeta (.str "f1")] "f1" = some r2 ∧
      (recReady.status = .ready → r2.status = .ready) :=
  (status_transitions_monotone cfgW).2.2.2 storeR [Op.getMeta (.str "f1")]
    "f1" recReady ⟨trivial, trivial⟩ (by decide)
